import Mathlib

/-!
Verification of the email-claude job pipeline and session/plan state machine.

Shallow embedding of the core logic of the `email-claude` repository:

* `src/session.ts` — subject normalization/hashing, the sessions schema and
  `updateSession`;
* `src/commands.ts` — bracket command parsing and natural-language intent
  detection (plan triggers, approval, revision);
* `src/handlers/email-job.ts` — the per-job dispatch (plan mode, commands,
  normal execution), modelled as a pure function from the job, the session
  record and the external collaborators' behaviour to a list of effects;
* `src/worker.ts` — retry scheduling (`calculateRetryDelay`, `scheduleRetry`)
  and retry promotion (`processRetryQueue`) over a pure model of the Redis
  pending list / retry sorted set / failed list.

JavaScript strings are modelled as Lean `String`/`List Char`; `undefined` and
`null` are modelled with `Option`; timestamps are `Nat` (milliseconds) where
the code uses `Date.now()` and `String` where it uses ISO strings.
-/

namespace EmailClaude

/-! ## JavaScript string primitives used by the source -/

/-- The ECMAScript `\s` class (WhiteSpace ∪ LineTerminator), as used by the
`\s` regex escapes and by `String.prototype.trim`. -/
def jsWhitespace (c : Char) : Bool :=
  c = ' ' || c = '\t' || c = '\n' || c = '\r' ||
  c = (Char.ofNat 11) || c = (Char.ofNat 12) ||        -- \v, \f
  c = (Char.ofNat 0x00a0) || c = (Char.ofNat 0xfeff) ||
  c = (Char.ofNat 0x1680) ||
  (0x2000 ≤ c.toNat && c.toNat ≤ 0x200a) ||
  c = (Char.ofNat 0x2028) || c = (Char.ofNat 0x2029) ||
  c = (Char.ofNat 0x202f) || c = (Char.ofNat 0x205f) || c = (Char.ofNat 0x3000)

/-- `String.prototype.trim` on a character list. -/
def jsTrimList (cs : List Char) : List Char :=
  ((cs.dropWhile jsWhitespace).reverse.dropWhile jsWhitespace).reverse

/-- `String.prototype.toLowerCase` (ASCII-faithful). -/
def jsLowerList (cs : List Char) : List Char := cs.map Char.toLower

/-- Case-insensitive list prefix test (pattern given in lowercase). -/
def isPrefixCI : List Char → List Char → Bool
  | [], _ => true
  | _ :: _, [] => false
  | p :: ps, c :: cs => (c.toLower = p) && isPrefixCI ps cs

/-- Exact list prefix test. -/
def isPrefixL : List Char → List Char → Bool
  | [], _ => true
  | _ :: _, [] => false
  | p :: ps, c :: cs => (p = c) && isPrefixL ps cs

/-- `String.prototype.includes` on character lists (`needle` first). -/
def listContains (needle : List Char) : List Char → Bool
  | [] => isPrefixL needle []
  | c :: rest => isPrefixL needle (c :: rest) || listContains needle rest

/-- `subject.toLowerCase().includes(tok)` — the substring test used by
`parseCommand` and `detectApproval`. -/
def containsTok (s : String) (tok : String) : Bool :=
  listContains tok.data (jsLowerList s.data)

/-- `s.trim()` on strings. -/
def jsTrim (s : String) : String := String.mk (jsTrimList s.data)

/-! ## SHA-256 (from Node's `createHash("sha256")`, used by `hashSubject`) -/

/-- `2^32`, the word modulus of SHA-256 arithmetic. -/
def M32 : Nat := 4294967296

def add32 (a b : Nat) : Nat := (a + b) % M32

/-- Right rotation of a 32-bit word by `n`. -/
def rotr32 (n x : Nat) : Nat := ((x >>> n) ||| (x <<< (32 - n))) % M32

def shr32 (n x : Nat) : Nat := x >>> n

def xor3 (a b c : Nat) : Nat := Nat.xor (Nat.xor a b) c

def bigSigma0 (x : Nat) : Nat := xor3 (rotr32 2 x) (rotr32 13 x) (rotr32 22 x)
def bigSigma1 (x : Nat) : Nat := xor3 (rotr32 6 x) (rotr32 11 x) (rotr32 25 x)
def smallSigma0 (x : Nat) : Nat := xor3 (rotr32 7 x) (rotr32 18 x) (shr32 3 x)
def smallSigma1 (x : Nat) : Nat := xor3 (rotr32 17 x) (rotr32 19 x) (shr32 10 x)

def chFn (x y z : Nat) : Nat := Nat.xor (Nat.land x y) (Nat.land (M32 - 1 - x % M32) z)
def majFn (x y z : Nat) : Nat := xor3 (Nat.land x y) (Nat.land x z) (Nat.land y z)

/-- The 64 SHA-256 round constants (FIPS 180-4, in decimal). -/
def K256 : List Nat :=
  [1116352408, 1899447441, 3049323471, 3921009573, 961987163, 1508970993,
   2453635748, 2870763221, 3624381080, 310598401, 607225278, 1426881987,
   1925078388, 2162078206, 2614888103, 3248222580, 3835390401, 4022224774,
   264347078, 604807628, 770255983, 1249150122, 1555081692, 1996064986,
   2554220882, 2821834349, 2952996808, 3210313671, 3336571891, 3584528711,
   113926993, 338241895, 666307205, 773529912, 1294757372, 1396182291,
   1695183700, 1986661051, 2177026350, 2456956037, 2730485921, 2820302411,
   3259730800, 3345764771, 3516065817, 3600352804, 4094571909, 275423344,
   430227734, 506948616, 659060556, 883997877, 958139571, 1322822218,
   1537002063, 1747873779, 1955562222, 2024104815, 2227730452, 2361852424,
   2428436474, 2756734187, 3204031479, 3329325298]

/-- SHA-256 hash state: eight 32-bit words. -/
structure Hash8 where
  a : Nat
  b : Nat
  c : Nat
  d : Nat
  e : Nat
  f : Nat
  g : Nat
  h : Nat
deriving Repr, DecidableEq

/-- The initial hash value (FIPS 180-4, in decimal). -/
def sha256Init : Hash8 :=
  ⟨1779033703, 3144134277, 1013904242, 2773480762,
   1359893119, 2600822924, 528734635, 1541459225⟩

/-- One compression round. -/
def sha256Round (st : Hash8) (kw : Nat × Nat) : Hash8 :=
  let t1 := add32 st.h (add32 (bigSigma1 st.e) (add32 (chFn st.e st.f st.g) (add32 kw.1 kw.2)))
  let t2 := add32 (bigSigma0 st.a) (majFn st.a st.b st.c)
  ⟨add32 t1 t2, st.a, st.b, st.c, add32 st.d t1, st.e, st.f, st.g⟩

/-- Big-endian 4-byte groups to 32-bit words. -/
def toWordsBE : List Nat → List Nat
  | b0 :: b1 :: b2 :: b3 :: rest =>
      (((b0 * 256 + b1) * 256 + b2) * 256 + b3) :: toWordsBE rest
  | _ => []

/-- Extend the 16-word block to the 64-word message schedule; `acc` holds the
words produced so far in reverse. -/
def scheduleExt (fuel : Nat) (acc : List Nat) : List Nat :=
  match fuel with
  | 0 => acc.reverse
  | fuel + 1 =>
    match acc with
    | _ :: w2 :: _ :: _ :: _ :: _ :: w7 :: _ :: _ :: _ :: _ :: _ :: _ :: _ :: w15 :: w16 :: _ =>
      scheduleExt fuel
        ((add32 (smallSigma1 w2) (add32 w7 (add32 (smallSigma0 w15) w16))) :: acc)
    | _ => acc.reverse

def sha256Schedule (block : List Nat) : List Nat :=
  scheduleExt 48 block.reverse

/-- Compress one 64-byte block into the hash state. -/
def sha256Block (st : Hash8) (block : List Nat) : Hash8 :=
  let w := sha256Schedule (toWordsBE block)
  let r := (K256.zip w).foldl sha256Round st
  ⟨add32 st.a r.a, add32 st.b r.b, add32 st.c r.c, add32 st.d r.d,
   add32 st.e r.e, add32 st.f r.f, add32 st.g r.g, add32 st.h r.h⟩

/-- Process the padded message in 64-byte chunks (the padded input is always a
positive multiple of 64 bytes, so the `< 64` case only ends the recursion). -/
def sha256Chunks (st : Hash8) (bytes : List Nat) : Hash8 :=
  if bytes.length < 64 then st
  else sha256Chunks (sha256Block st (bytes.take 64)) (bytes.drop 64)
termination_by bytes.length
decreasing_by
  simp only [List.length_drop]
  omega

/-- Big-endian 8-byte encoding of the bit length. -/
def lengthBytes64 (n : Nat) : List Nat :=
  [n >>> 56 % 256, n >>> 48 % 256, n >>> 40 % 256, n >>> 32 % 256,
   n >>> 24 % 256, n >>> 16 % 256, n >>> 8 % 256, n % 256]

/-- SHA-256 padding: append `0x80`, zeros to 56 mod 64, then the bit length. -/
def sha256Pad (msg : List Nat) : List Nat :=
  let l := msg.length
  let zeros := (64 + 55 - l % 64) % 64
  msg ++ [0x80] ++ List.replicate zeros 0 ++ lengthBytes64 (8 * l)

/-- A 32-bit word as exactly eight lowercase hex characters. -/
def hexDigit (n : Nat) : Char :=
  if n < 10 then Char.ofNat (48 + n) else Char.ofNat (87 + n)

def wordToHex (w : Nat) : List Char :=
  [hexDigit (w >>> 28 % 16), hexDigit (w >>> 24 % 16), hexDigit (w >>> 20 % 16),
   hexDigit (w >>> 16 % 16), hexDigit (w >>> 12 % 16), hexDigit (w >>> 8 % 16),
   hexDigit (w >>> 4 % 16), hexDigit (w % 16)]

/-- SHA-256 digest of a byte list, as the 64-character lowercase hex string
(`createHash("sha256").update(·).digest("hex")`). -/
def sha256HexChars (msg : List Nat) : List Char :=
  let st := sha256Chunks sha256Init (sha256Pad msg)
  List.flatten ([st.a, st.b, st.c, st.d, st.e, st.f, st.g, st.h].map wordToHex)

/-- UTF-8 encoding of one character. -/
def utf8EncodeChar (c : Char) : List Nat :=
  let n := c.toNat
  if n < 0x80 then [n]
  else if n < 0x800 then [0xc0 + n / 64, 0x80 + n % 64]
  else if n < 0x10000 then [0xe0 + n / 4096, 0x80 + n / 64 % 64, 0x80 + n % 64]
  else [0xf0 + n / 262144, 0x80 + n / 4096 % 64, 0x80 + n / 64 % 64, 0x80 + n % 64]

/-- UTF-8 byte encoding of a string (`hash.update(normalized)` hashes UTF-8). -/
def utf8Encode (s : String) : List Nat :=
  s.data.flatMap utf8EncodeChar

/-! ## Subject normalization and hashing (`src/session.ts`) -/

/-- The leading-marker strip performed by
`subject.replace(/^(?:re:|fwd?:|fw:)\s*/gi, "")`: with the `^` anchor and no
`m` flag the global replace removes at most one marker, at position 0, together
with the whitespace that follows it. -/
def stripReplyMarker (cs : List Char) : List Char :=
  if isPrefixCI "re:".data cs then (cs.drop 3).dropWhile jsWhitespace
  else if isPrefixCI "fwd:".data cs then (cs.drop 4).dropWhile jsWhitespace
  else if isPrefixCI "fw:".data cs then (cs.drop 3).dropWhile jsWhitespace
  else cs

/-- `normalizeSubject` from `src/session.ts`: strip one leading `Re:`/`Fwd:`/
`Fw:` marker (case-insensitive) with trailing whitespace, trim, lower-case. -/
def normalizeSubject (subject : String) : String :=
  String.mk (jsLowerList (jsTrimList (stripReplyMarker subject.data)))

/-- `hashSubject` from `src/session.ts`: first 12 hex characters of the
SHA-256 digest of the normalized subject. -/
def hashSubject (subject : String) : String :=
  String.mk ((sha256HexChars (utf8Encode (normalizeSubject subject))).take 12)

/-! ## A matcher for the JavaScript regexes of `src/commands.ts`

The natural-language intent detection in `src/commands.ts` uses a fixed list of
case-insensitive regexes built from literals, `\b`, `\s+`/`\s*`, alternation,
optional pieces, character classes and `$`. `RE` is an AST covering exactly
those constructs, and `reTest` is `regex.test(string)`: does a match start at
some position? `wb` needs one character of left context, threaded as `prev`. -/

inductive RE where
  | eps : RE
  | cls : (Char → Bool) → RE
  | seq : RE → RE → RE
  | alt : RE → RE → RE
  | starC : (Char → Bool) → RE
  | wb : RE
  | eos : RE

/-- ECMAScript word character (`\w`), the class used by `\b`. -/
def isWordChar (c : Char) : Bool :=
  ('a' ≤ c && c ≤ 'z') || ('A' ≤ c && c ≤ 'Z') || ('0' ≤ c && c ≤ '9') || c = '_'

/-- Is there a `\b` boundary between `prev` and the start of `s`? -/
def atBoundary (prev : Option Char) (s : List Char) : Bool :=
  let pw := match prev with | some c => isWordChar c | none => false
  let nw := match s with | c :: _ => isWordChar c | [] => false
  pw != nw

/-- `starC f` matches zero or more characters of the class `f`; existential
over all split points, which coincides with backtracking `test()` semantics. -/
def matchStar (f : Char → Bool) (k : Option Char → List Char → Bool) :
    Option Char → List Char → Bool
  | prev, [] => k prev []
  | prev, c :: rest => k prev (c :: rest) || (f c && matchStar f k (some c) rest)

/-- Continuation-passing matcher: `matchRE r prev s k` holds iff some prefix of
`s` matches `r` (with left context `prev`) and `k` accepts the remainder. -/
def matchRE : RE → Option Char → List Char → (Option Char → List Char → Bool) → Bool
  | .eps, prev, s, k => k prev s
  | .cls _, _, [], _ => false
  | .cls f, _, c :: rest, k => f c && k (some c) rest
  | .seq a b, prev, s, k => matchRE a prev s (fun p t => matchRE b p t k)
  | .alt a b, prev, s, k => matchRE a prev s k || matchRE b prev s k
  | .starC f, prev, s, k => matchStar f k prev s
  | .wb, prev, s, k => atBoundary prev s && k prev s
  | .eos, prev, s, k => s.isEmpty && k prev s

/-- Unanchored search from every position, like `regex.test`. -/
def searchAux (r : RE) : Option Char → List Char → Bool
  | prev, [] => matchRE r prev [] (fun _ _ => true)
  | prev, c :: rest =>
      matchRE r prev (c :: rest) (fun _ _ => true) || searchAux r (some c) rest

/-- `r.test(s)` for the regexes of `src/commands.ts`. -/
def reTest (r : RE) (s : String) : Bool := searchAux r none s.data

/-! Combinators mirroring the regex syntax. -/

/-- A case-insensitive literal character (all the sources use the `i` flag). -/
def chC (c : Char) : RE := .cls (fun x => x.toLower = c)

/-- A case-insensitive literal word, as a `seq` chain. -/
def litCI (w : String) : RE := w.data.foldr (fun c r => .seq (chC c) r) .eps

def reSeq (rs : List RE) : RE := rs.foldr .seq .eps

def reAlts : List RE → RE
  | [] => .eps
  | [r] => r
  | r :: rs => .alt r (reAlts rs)

/-- `\s+` -/
def ws1 : RE := .seq (.cls jsWhitespace) (.starC jsWhitespace)

/-- `\s*` -/
def ws0 : RE := .starC jsWhitespace

/-- `(...)?` -/
def reOpt (r : RE) : RE := .alt r .eps

/-- The apostrophe character (for `don'?t`). -/
def apos : Char := Char.ofNat 39

/-! ## Command parsing and intent detection (`src/commands.ts`) -/

inductive CommandType where
  | merge | close | status | plan | confirm | cancel
deriving Repr, DecidableEq

/-- `parseCommand`: case-insensitive bracketed tokens anywhere in the subject,
tested in the source's order; `none` models the `null` return. -/
def parseCommand (subject : String) : Option CommandType :=
  if containsTok subject "[merge]" then some .merge
  else if containsTok subject "[close]" then some .close
  else if containsTok subject "[status]" then some .status
  else if containsTok subject "[plan]" then some .plan
  else if containsTok subject "[confirm]" then some .confirm
  else if containsTok subject "[cancel]" then some .cancel
  else none

/-- `PLAN_TRIGGER_PATTERNS`, one `RE` per source regex, in order. -/
def PLAN_TRIGGER_PATTERNS : List RE :=
  [ reSeq [.wb, litCI "plan", ws1, reAlts [litCI "for", litCI "out", litCI "to"], .wb],
    reSeq [.wb, litCI "write", ws1, reOpt (reSeq [litCI "me", ws1]), litCI "a", ws1, litCI "plan", .wb],
    reSeq [.wb, litCI "create", ws1, reOpt (reSeq [litCI "me", ws1]), litCI "a", ws1, litCI "plan", .wb],
    reSeq [.wb, litCI "draft", ws1, reOpt (reSeq [litCI "me", ws1]), litCI "a", ws1, litCI "plan", .wb],
    reSeq [.wb, litCI "outline", ws1, reAlts [litCI "the", litCI "a"], .wb],
    reSeq [.wb, litCI "design", ws1, reOpt (reSeq [litCI "a", reOpt (chC 'n'), ws1]), litCI "approach", .wb],
    reSeq [.wb, litCI "propose", ws1, reOpt (reSeq [litCI "a", reOpt (chC 'n'), ws1]), litCI "approach", .wb],
    reSeq [.wb, litCI "before", ws1, litCI "you", ws1,
           reAlts [litCI "start", litCI "begin", litCI "implement"], .wb],
    reSeq [.wb, litCI "don", reOpt (chC apos), litCI "t", ws1,
           reAlts [litCI "start", litCI "begin", litCI "implement"], ws1, litCI "yet", .wb],
    reSeq [.wb, litCI "wait", ws1, litCI "for", ws1, reOpt (reSeq [litCI "my", ws1]), litCI "approval", .wb],
    reSeq [.wb, litCI "just", ws1, litCI "plan", .wb],
    reSeq [.wb, litCI "only", ws1, litCI "plan", .wb] ]

/-- `detectPlanTrigger`: any plan-trigger regex over `subject ⧺ " " ⧺ body`. -/
def detectPlanTrigger (subject body : String) : Bool :=
  let combined := subject ++ " " ++ body
  PLAN_TRIGGER_PATTERNS.any (fun r => reTest r combined)

/-- `APPROVAL_PATTERNS`, one `RE` per source regex, in order. -/
def APPROVAL_PATTERNS : List RE :=
  [ reSeq [.wb, reAlts [reSeq [litCI "look", reOpt (chC 's'), ws1, litCI "good"], litCI "lgtm"], .wb],
    reSeq [.wb, litCI "approve", reOpt (chC 'd'), .wb],
    reSeq [.wb, litCI "go", ws1, litCI "ahead", .wb],
    reSeq [.wb, litCI "proceed", .wb],
    reSeq [.wb, litCI "ship", ws1, litCI "it", .wb],
    reSeq [.wb, litCI "do", ws1, litCI "it", .wb],
    reSeq [.wb, litCI "execute", .wb],
    reSeq [.wb, litCI "implement", ws1, reAlts [litCI "it", litCI "this", litCI "that"], .wb],
    reSeq [.wb, litCI "make", ws1, reOpt (reSeq [litCI "the", ws1]), litCI "change", reOpt (chC 's'), .wb],
    reSeq [.wb, reAlts [litCI "yes", litCI "ok", litCI "okay", litCI "yep", litCI "yup",
                        litCI "sure", litCI "perfect", litCI "great", litCI "awesome"],
           .starC (fun c => c = '.' || c = '!'), ws0, .eos] ]

/-- `REVISION_PATTERNS`, one `RE` per source regex, in order. -/
def REVISION_PATTERNS : List RE :=
  [ reSeq [.wb, litCI "but", ws1,
           reAlts [litCI "first", litCI "also", litCI "instead", litCI "can", litCI "could",
                   litCI "please", litCI "add", litCI "remove", litCI "change"], .wb],
    reSeq [.wb, litCI "wait", .wb],
    reSeq [.wb, litCI "hold", ws1, litCI "on", .wb],
    reSeq [.wb, litCI "change", .wb],
    reSeq [.wb, litCI "modify", .wb],
    reSeq [.wb, litCI "update", .wb],
    reSeq [.wb, litCI "no", reOpt (.cls (fun c => c = ',' || c = '.')), .cls jsWhitespace],
    reSeq [.wb, litCI "don", reOpt (chC apos), litCI "t", .wb],
    reSeq [.wb, litCI "instead", .wb],
    reSeq [.wb, litCI "rather", .wb],
    reSeq [.wb, litCI "actually", .wb],
    reSeq [.wb, litCI "however", .wb],
    reSeq [.wb, litCI "also", ws1, litCI "add", .wb],
    .cls (fun c => c = '?') ]

/-- `detectApproval`: an explicit `[confirm]` in the subject always approves;
otherwise any revision pattern wins (returns false); otherwise any approval
pattern approves. Patterns run over `subject ⧺ " " ⧺ body`. -/
def detectApproval (subject body : String) : Bool :=
  let combined := subject ++ " " ++ body
  if containsTok subject "[confirm]" then true
  else if REVISION_PATTERNS.any (fun r => reTest r combined) then false
  else APPROVAL_PATTERNS.any (fun r => reTest r combined)

/-! ## Session store (`src/session.ts` and `getSessionById` in `src/worker.ts`)

The `sessions` table created by `initDb` has exactly the columns `id`,
`subject_hash`, `project`, `branch_name`, `claude_session_id`, `pr_number`,
`created_at`, `last_activity` — there is no `mode` and no `pending_plan`
column.  `SessionRow` is that row (also the `Session` interface).  The email
handler, however, reads `session.mode` and `session.pendingPlan` from the
session object at runtime; `HSession` is the handler's view, where those two
properties may be present (`none` models JavaScript `undefined`). -/

inductive SessionMode where
  | normal | plan_pending
deriving Repr, DecidableEq

/-- One row of the `sessions` table / the `Session` interface of
`src/session.ts`. -/
structure SessionRow where
  id : String
  subjectHash : String
  project : String
  branchName : String
  claudeSessionId : Option String
  prNumber : Option Int
  createdAt : String
  lastActivity : String
deriving Repr, DecidableEq

/-- The session object as the handler dereferences it: the row's fields plus
the dynamically-read `mode` / `pendingPlan` properties. -/
structure HSession where
  id : String
  subjectHash : String
  project : String
  branchName : String
  claudeSessionId : Option String
  prNumber : Option Int
  createdAt : String
  lastActivity : String
  mode : Option SessionMode := none
  pendingPlan : Option String := none
deriving Repr, DecidableEq

/-- `getSessionById` (`src/worker.ts`): the SELECT projects exactly the row's
columns, so the object handed to the handler never carries `mode` or
`pendingPlan`. -/
def rowToSession (r : SessionRow) : HSession :=
  { id := r.id, subjectHash := r.subjectHash, project := r.project,
    branchName := r.branchName, claudeSessionId := r.claudeSessionId,
    prNumber := r.prNumber, createdAt := r.createdAt,
    lastActivity := r.lastActivity, mode := none, pendingPlan := none }

/-- The `updates` object passed to `updateSession`.  An outer `none` models an
absent key (`undefined`); for the nullable columns the inner `Option` models
`null`.  `mode` and `pendingPlan` appear here because the plan-mode handlers
pass them. -/
structure SessionUpdate where
  claudeSessionId : Option (Option String) := none
  prNumber : Option (Option Int) := none
  branchName : Option String := none
  project : Option String := none
  mode : Option SessionMode := none
  pendingPlan : Option (Option String) := none
deriving Repr, DecidableEq

/-- `updateSession` (`src/session.ts`): always sets `last_activity`; consults
only the keys `claudeSessionId`, `prNumber`, `branchName` and `project` of the
update object (each guarded by `!== undefined`).  No other key is read. -/
def updateSession (now : String) (r : SessionRow) (u : SessionUpdate) : SessionRow :=
  { r with
    lastActivity := now,
    claudeSessionId := u.claudeSessionId.getD r.claudeSessionId,
    prNumber := u.prNumber.getD r.prNumber,
    branchName := u.branchName.getD r.branchName,
    project := u.project.getD r.project }

/-! ## Mailer data model (`src/mailer.ts`) -/

structure EmailAttachment where
  filename : String
  content : String
  contentType : Option String
deriving Repr, DecidableEq

/-- The `EmailJob` interface (`src/mailer.ts`, lines 38-50): the queue
payload.  `retryCount` is absent (`none`) on a job's first attempt. -/
structure EmailJob where
  id : String
  sessionId : String
  project : String
  prompt : String
  replyTo : String
  originalSubject : String
  messageId : String
  resumeSession : Bool
  attachments : Option (List EmailAttachment) := none
  createdAt : String
  retryCount : Option Nat := none
deriving Repr, DecidableEq

/-- An outbound reply (`EmailReply`); the HTML rendering is outbound-email
territory and out of the verified core, so only the text part is modelled. -/
structure EmailReply where
  toAddr : String
  subject : String
  inReplyTo : Option String
  text : String
deriving Repr, DecidableEq

/-- The `ClaudeResult` interface (`src/mailer.ts`). -/
structure ClaudeResult where
  summary : String
  filesChanged : List String := []
  prUrl : Option String := none
  prNumber : Option Int := none
  previewUrls : Option (List String) := none
  claudeSessionId : Option String := none
  errorMsg : Option String := none
deriving Repr, DecidableEq

/-- `formatErrorReply` (text part). -/
def formatErrorReply (errMessage : String) (job : EmailJob) : EmailReply :=
  { toAddr := job.replyTo,
    subject := "Re: " ++ job.originalSubject,
    inReplyTo := some job.messageId,
    text := String.intercalate "\n"
      ["Error", "", "An error occurred while processing your request:", "",
       errMessage, "", "---", "Reply to try again or start a new task."] }

/-- `formatPlanReply` (text part): the plan followed by the approval /
revision / cancellation instructions. -/
def formatPlanReply (plan : String) (job : EmailJob) (isRevision : Bool) : EmailReply :=
  { toAddr := job.replyTo,
    subject := "Re: " ++ job.originalSubject,
    inReplyTo := some job.messageId,
    text := String.intercalate "\n"
      [(if isRevision then "Revised Plan" else "Implementation Plan"), "",
       plan, "", "---", "",
       "To approve this plan, reply with:",
       "- [confirm] in the subject, OR",
       "- \"Looks good\", \"Approved\", \"Go ahead\", etc.", "",
       "To request changes, simply reply with your feedback.",
       "To cancel, reply with [cancel] in the subject."] }

/-- `formatSuccessReply` (text part). -/
def formatSuccessReply (result : ClaudeResult) (job : EmailJob) : EmailReply :=
  { toAddr := job.replyTo,
    subject := "Re: " ++ job.originalSubject,
    inReplyTo := some job.messageId,
    text := String.intercalate "\n"
      (["Summary", result.summary, ""] ++
       (if result.filesChanged.isEmpty then []
        else ["Changes"] ++ result.filesChanged.map (fun f => "- " ++ f) ++ [""]) ++
       ["Links"] ++
       (match result.prUrl with | some u => ["- PR: " ++ u] | none => []) ++
       (match result.previewUrls with
        | some us => if us.isEmpty then [] else us.map (fun u => "- Preview: " ++ u)
        | none => []) ++
       ["- Branch: email/" ++ job.sessionId, "", "---",
        "Reply to this email to continue the conversation."]) }

/-! ## Prompt builders (`src/prompts.ts`)

`loadPrompt` reads a markdown template from disk; the templates are data, so
the builders are parameterized by the loader `lp : String → String`. -/

/-- The `userContent` expression shared by all builders:
`body.trim() ? `Subject: ...` : subject`. -/
def userContentOf (subject body : String) : String :=
  if jsTrim body ≠ "" then "Subject: " ++ subject ++ "\n\n" ++ body else subject

def buildFullPrompt (lp : String → String) (subject body : String) : String :=
  lp "system" ++ "\n\n---\n\n" ++ userContentOf subject body

/-- `buildPlanPrompt`: plan-only mode — the prompt opens with the `plan-mode`
instructions instead of the execution system prompt. -/
def buildPlanPrompt (lp : String → String) (subject body : String) : String :=
  lp "plan-mode" ++ "\n\n---\n\n" ++ userContentOf subject body

def buildExecutionPrompt (lp : String → String) (subject body approvedPlan : String) : String :=
  lp "system" ++ "\n\n---\n\n## Approved Plan\n\n" ++
  "The user has reviewed and approved the following plan. Execute it now:\n\n" ++
  approvedPlan ++ "\n\n---\n\n## User" ++ String.mk [apos] ++ "s Approval Message\n\n" ++
  userContentOf subject body

def buildRevisionPrompt (lp : String → String) (subject body currentPlan : String) : String :=
  lp "plan-mode" ++ "\n\n---\n\n## Current Plan\n\n" ++ currentPlan ++
  "\n\n---\n\n## Revision Request\n\nThe user wants changes to this plan:\n\n" ++
  userContentOf subject body ++
  "\n\n---\n\nPlease revise the plan based on the user" ++ String.mk [apos] ++
  "s feedback. Remember: DO NOT implement anything, only update the plan."

/-! ## The email-job handler (`src/handlers/email-job.ts`)

The handler orchestrates external collaborators (git, the Claude Code
subprocess, the mailer, the session store).  It is embedded as a pure function
from the job, the session object and the collaborators' behaviour to the list
of side effects it performs, in order.  The collaborators are parameters:

* `lp`       — `loadPrompt` (the markdown templates on disk);
* `agent`    — `runClaude`: the external agent's result for a given prompt;
* `hasCommits` — the answer `hasCommitsAhead` would give;
* `prUrlOf`  — `getPRUrl` for a PR number;
* `newPr`    — the number `createPR` would return. -/

/-- One observable side effect of handling a job. -/
inductive Effect where
  /-- `ensureRepo`: clone the project if missing. -/
  | ensureRepoE (project : String) : Effect
  /-- `ensureOnDefaultBranch` (branch safety; may checkout and notify, never
  commits). -/
  | ensureDefaultBranchE (newBranch : String) : Effect
  /-- `ensureBranch`: create/checkout the session branch. -/
  | ensureBranchE (branch : String) : Effect
  /-- `saveAttachments` wrote these files. -/
  | saveAttachmentsE (paths : List String) : Effect
  /-- `addSessionMessage`: append to the conversation log. -/
  | message (role : String) (content : String) : Effect
  /-- `runClaude` invoked with this prompt. -/
  | agentInvoke (prompt : String) : Effect
  /-- `updateSession` called with this update object. -/
  | sessionUpdate (u : SessionUpdate) : Effect
  /-- `sendReply` with this reply. -/
  | sendReplyE (reply : EmailReply) : Effect
  /-- `createPR` with this title (body is the conversation log). -/
  | createPRE (title : String) : Effect
  /-- `commentOnPR` on this PR number. -/
  | commentPRE (pr : Int) : Effect
  /-- `mergePR`. -/
  | mergePRE (pr : Int) : Effect
  /-- `closePR`. -/
  | closePRE (pr : Int) : Effect
deriving Repr, DecidableEq

/-- Collaborator behaviour, bundled so the handler stays a pure function. -/
structure World where
  lp : String → String
  agent : String → ClaudeResult
  hasCommits : Bool
  prUrlOf : Int → String
  newPr : Int

/-- `claudeSessionId: result.claudeSessionId ?? session.claudeSessionId`. -/
def csidCoalesce (result : ClaudeResult) (session : HSession) : Option String :=
  match result.claudeSessionId with
  | some s => some s
  | none => session.claudeSessionId

/-- The conditional `if (result.claudeSessionId && session.claudeSessionId === null)`
update performed by the execution paths. -/
def csidUpdateEffects (result : ClaudeResult) (session : HSession) : List Effect :=
  match result.claudeSessionId, session.claudeSessionId with
  | some s, none => [.sessionUpdate { claudeSessionId := some (some s) }]
  | _, _ => []

/-- `finalizePRAndReply`: PR creation or comment (only when there are commits
ahead), then the success reply. -/
def finalizePRAndReply (w : World) (job : EmailJob) (session : HSession)
    (result : ClaudeResult) : List Effect :=
  if w.hasCommits then
    match session.prNumber with
    | none =>
        [.createPRE ("[Email] " ++ job.originalSubject),
         .sessionUpdate { prNumber := some (some w.newPr) },
         .sendReplyE (formatSuccessReply
           { result with prNumber := some w.newPr, prUrl := some (w.prUrlOf w.newPr) } job)]
    | some n =>
        [.commentPRE n,
         .sendReplyE (formatSuccessReply
           { result with prNumber := some n, prUrl := some (w.prUrlOf n) } job)]
  else
    [.sendReplyE (formatSuccessReply result job)]

/-- `handlePlanRequest`: run the agent in plan-only mode, pass the plan and
`mode: plan_pending` to the session store, reply with the plan. -/
def handlePlanRequest (w : World) (job : EmailJob) (session : HSession) : List Effect :=
  let userMessage := userContentOf job.originalSubject job.prompt
  let planPrompt := buildPlanPrompt w.lp job.originalSubject job.prompt
  let result := w.agent planPrompt
  [.ensureRepoE job.project] ++
  (if session.prNumber = none then [.ensureDefaultBranchE session.branchName] else []) ++
  [.ensureBranchE session.branchName,
   .message "user" ("[Plan Request] " ++ userMessage),
   .agentInvoke planPrompt,
   .sessionUpdate { mode := some .plan_pending,
                    pendingPlan := some (some result.summary),
                    claudeSessionId := some (csidCoalesce result session) },
   .message "assistant" ("[Plan]\n\n" ++ result.summary),
   .sendReplyE (formatPlanReply result.summary job false)]

/-- `handlePlanExecution`: execute an approved plan (`session.pendingPlan!`
interpolates to the string `"undefined"` when the property is absent). -/
def handlePlanExecution (w : World) (job : EmailJob) (session : HSession) : List Effect :=
  let approvalMessage := if jsTrim job.prompt ≠ "" then jsTrim job.prompt else "Approved"
  let planText := (session.pendingPlan).getD "undefined"
  let execPrompt := buildExecutionPrompt w.lp job.originalSubject job.prompt planText
  let result := w.agent execPrompt
  [.ensureRepoE job.project,
   .ensureBranchE session.branchName,
   .message "user" ("[Approved] " ++ approvalMessage),
   .sessionUpdate { mode := some .normal, pendingPlan := some none },
   .agentInvoke execPrompt,
   .message "assistant" result.summary] ++
  csidUpdateEffects result session ++
  finalizePRAndReply w job session result

/-- `handlePlanRevision`: re-run the agent in plan-only mode over the prior
plan plus the revision request; pass the new plan to the session store. -/
def handlePlanRevision (w : World) (job : EmailJob) (session : HSession) : List Effect :=
  let userMessage := userContentOf job.originalSubject job.prompt
  let planText := (session.pendingPlan).getD "undefined"
  let revisionPrompt := buildRevisionPrompt w.lp job.originalSubject job.prompt planText
  let result := w.agent revisionPrompt
  [.ensureRepoE job.project,
   .ensureBranchE session.branchName,
   .message "user" ("[Revision Request] " ++ userMessage),
   .agentInvoke revisionPrompt,
   .sessionUpdate { pendingPlan := some (some result.summary),
                    claudeSessionId := some (csidCoalesce result session) },
   .message "assistant" ("[Revised Plan]\n\n" ++ result.summary),
   .sendReplyE (formatPlanReply result.summary job true)]

/-- `handlePlanPendingReply`: approval executes, anything else revises. -/
def handlePlanPendingReply (w : World) (job : EmailJob) (session : HSession) : List Effect :=
  if detectApproval job.originalSubject job.prompt then
    handlePlanExecution w job session
  else
    handlePlanRevision w job session

/-- `handleCancelPlan`: pass the mode reset to the store, log, acknowledge. -/
def handleCancelPlan (job : EmailJob) : List Effect :=
  [.sessionUpdate { mode := some .normal, pendingPlan := some none },
   .message "user" "[Cancelled]",
   .sendReplyE { toAddr := job.replyTo,
                 subject := "Re: " ++ job.originalSubject,
                 inReplyTo := some job.messageId,
                 text := "Plan cancelled. You can start a new request by sending another email." }]

/-- `handleCommand`: merge/close/status need an existing PR; the `switch` has
no case for `plan`/`confirm`/`cancel`, so those produce no effect here. -/
def handleCommand (w : World) (command : CommandType) (session : HSession)
    (job : EmailJob) : List Effect :=
  match session.prNumber with
  | none =>
      [.sendReplyE { toAddr := job.replyTo,
                     subject := "Re: " ++ job.originalSubject,
                     inReplyTo := some job.messageId,
                     text := "Error: No PR exists for this session yet. Send a task email first to create a PR." }]
  | some n =>
      match command with
      | .merge =>
          [.mergePRE n,
           .sendReplyE { toAddr := job.replyTo,
                         subject := "Re: " ++ job.originalSubject,
                         inReplyTo := some job.messageId,
                         text := "PR #" ++ toString n ++ " has been merged successfully." }]
      | .close =>
          [.closePRE n,
           .sendReplyE { toAddr := job.replyTo,
                         subject := "Re: " ++ job.originalSubject,
                         inReplyTo := some job.messageId,
                         text := "PR #" ++ toString n ++ " has been closed without merging." }]
      | .status =>
          [.sendReplyE { toAddr := job.replyTo,
                         subject := "Re: " ++ job.originalSubject,
                         inReplyTo := some job.messageId,
                         text := String.intercalate "\n"
                           ["Status for session: " ++ session.id, "",
                            "Project: " ++ job.project,
                            "Branch: " ++ session.branchName,
                            "PR: #" ++ toString n,
                            "PR URL: " ++ w.prUrlOf n] }]
      | _ => []

/-- Attachment paths produced by `saveAttachments`. -/
def attachmentPathsOf (projectsDir : String) (job : EmailJob) : List String :=
  (job.attachments.getD []).map
    (fun a => projectsDir ++ "/" ++ job.project ++ "/.attachments/" ++ job.sessionId ++ "/" ++ a.filename)

/-- `handleNormalExecution`: the original full-context execution flow. -/
def handleNormalExecution (w : World) (projectsDir : String) (job : EmailJob)
    (session : HSession) : List Effect :=
  let userMessage := userContentOf job.originalSubject job.prompt
  let attachmentPaths := attachmentPathsOf projectsDir job
  let basePrompt := buildFullPrompt w.lp job.originalSubject job.prompt
  let fullPrompt :=
    if attachmentPaths.isEmpty then basePrompt
    else basePrompt ++ "\n\n---\n\nAttached files (saved to disk):\n" ++
         String.intercalate "\n" (attachmentPaths.map (fun p => "- " ++ p))
  let result := w.agent fullPrompt
  [.ensureRepoE job.project] ++
  (if session.prNumber = none then [.ensureDefaultBranchE session.branchName] else []) ++
  [.ensureBranchE session.branchName] ++
  (if attachmentPaths.isEmpty then [] else [.saveAttachmentsE attachmentPaths]) ++
  [.message "user" userMessage,
   .agentInvoke fullPrompt,
   .message "assistant" result.summary] ++
  csidUpdateEffects result session ++
  finalizePRAndReply w job session result

/-- `handleEmailJob`: the dispatch at the top of `src/handlers/email-job.ts`,
in the source's order: cancel / confirm in plan mode, then the other bracket
commands, then a pending plan, then a plan request, then normal execution. -/
def handleEmailJob (w : World) (projectsDir : String) (job : EmailJob)
    (session : HSession) : List Effect :=
  let command := parseCommand job.originalSubject
  if command = some .cancel ∧ session.mode = some .plan_pending then
    handleCancelPlan job
  else if command = some .confirm ∧ session.mode = some .plan_pending then
    handlePlanExecution w job session
  else if h : command.isSome ∧ command ≠ some .plan then
    handleCommand w (command.get h.1) session job
  else if session.mode = some .plan_pending then
    handlePlanPendingReply w job session
  else if command = some .plan ∨ detectPlanTrigger job.originalSubject job.prompt then
    handlePlanRequest w job session
  else
    handleNormalExecution w projectsDir job session

/-! ## Job queue and retry engine (`src/worker.ts`)

The pending queue is a Redis list (`rPush`/`blPop`), the retry queue a sorted
set (`zAdd`/`zRangeByScore`/`zRem`) keyed by the serialized job with the due
timestamp as score, and the failed queue a list (`lPush`).  Members of a
sorted set are unique, so a well-formed retry queue never holds two entries
with the same job; scores (timestamps) are `Nat` milliseconds. -/

/-- `MAX_RETRIES = 3`. -/
def MAX_RETRIES : Nat := 3

/-- `calculateRetryDelay`: `Math.pow(2, retryCount) * 1000`. -/
def calculateRetryDelay (retryCount : Nat) : Nat :=
  2 ^ retryCount * 1000

/-- A dead-letter entry: the job spread together with `failedAt`/`lastError`. -/
structure FailedJob where
  job : EmailJob
  failedAt : String
  lastError : String
deriving Repr, DecidableEq

/-- The three queues of the worker. -/
@[ext]
structure QState where
  pending : List EmailJob
  retry : List (Nat × EmailJob)
  failed : List FailedJob
deriving Repr, DecidableEq

/-- `zAdd`: upsert the member with the given score (sorted-set semantics:
an existing member gets its score replaced, a new member is added). -/
def zAdd (retry : List (Nat × EmailJob)) (score : Nat) (j : EmailJob) :
    List (Nat × EmailJob) :=
  if retry.any (fun e => e.2 = j) then
    retry.map (fun e => if e.2 = j then (score, j) else e)
  else
    retry ++ [(score, j)]

/-- The outcome of `scheduleRetry`: the new queues, plus the final failure
notification when one is emitted. -/
structure ScheduleOutcome where
  state : QState
  finalEmail : Option EmailReply
deriving Repr, DecidableEq

/-- `scheduleRetry(redis, job, error)` (worker.ts).  `now` is `Date.now()`
and `nowIso` the `new Date().toISOString()` used for `failedAt`. -/
def scheduleRetry (now : Nat) (nowIso : String) (st : QState) (job : EmailJob)
    (errMsg : String) : ScheduleOutcome :=
  let currentRetryCount := job.retryCount.getD 0
  if currentRetryCount ≥ MAX_RETRIES then
    { state := { st with
        failed := { job := job, failedAt := nowIso, lastError := errMsg } :: st.failed },
      finalEmail := some (formatErrorReply
        ("Job failed after " ++ toString MAX_RETRIES ++ " retries. Last error: " ++ errMsg)
        job) }
  else
    let delay := calculateRetryDelay currentRetryCount
    let retryAt := now + delay
    let retryJob := { job with retryCount := some (currentRetryCount + 1) }
    { state := { st with retry := zAdd st.retry retryAt retryJob },
      finalEmail := none }

/-- The per-entry body of the `for` loop in `processRetryQueue`: `zRem` the
member, and only if something was removed, `rPush` it to pending and count. -/
def promoteLoop (todo : List (Nat × EmailJob)) (st : QState) (acc : Nat) :
    QState × Nat :=
  match todo with
  | [] => (st, acc)
  | e :: rest =>
    let removed := (st.retry.filter (fun x => decide (x.2 = e.2))).length
    if removed > 0 then
      promoteLoop rest
        { st with
          retry := st.retry.filter (fun x => ! decide (x.2 = e.2)),
          pending := st.pending ++ [e.2] }
        (acc + 1)
    else
      promoteLoop rest st acc

/-- `processRetryQueue(redis)`: promote every retry entry whose due time is
`≤ now` (`zRangeByScore(queue, 0, now)`; scores are timestamps ≥ 0) into the
pending queue, returning the new state and the promoted count. -/
def processRetryQueue (now : Nat) (st : QState) : QState × Nat :=
  let readyJobs := st.retry.filter (fun e => decide (e.1 ≤ now))
  promoteLoop readyJobs st 0

/-! ## Helper lemmas on the retry engine -/

/-- A `zAdd`ed member is in the resulting sorted set with the given score. -/
theorem mem_zAdd (retry : List (Nat × EmailJob)) (score : Nat) (j : EmailJob) :
    (score, j) ∈ zAdd retry score j := by
  unfold zAdd
  by_cases h : retry.any (fun e => e.2 = j)
  · simp only [h, if_true]
    obtain ⟨e, he, hej⟩ := List.any_eq_true.mp h
    refine List.mem_map.mpr ⟨e, he, ?_⟩
    simp only [of_decide_eq_true hej, if_true]
  · simp [h]

/-- Characterization of the promotion loop of `processRetryQueue`: when the
work list is a sublist of a retry queue with pairwise-distinct members (the
sorted-set invariant), every entry is removed from the retry queue and its job
appended to pending, and the counter advances by the work list's length. -/
theorem promoteLoop_spec (todo : List (Nat × EmailJob)) :
    ∀ (st : QState) (acc : Nat), todo.Sublist st.retry →
      (st.retry.map Prod.snd).Nodup →
      promoteLoop todo st acc =
        ({ pending := st.pending ++ todo.map Prod.snd,
           retry := st.retry.filter (fun x => decide (x.2 ∉ todo.map Prod.snd)),
           failed := st.failed }, acc + todo.length) := by
  induction todo with
  | nil =>
    intro st acc _ _
    obtain ⟨p, r, f⟩ := st
    simp [promoteLoop]
  | cons e rest ih =>
    intro st acc hsub hnd
    have he : e ∈ st.retry := hsub.subset (List.mem_cons_self e rest)
    have hpos : 0 < (st.retry.filter (fun x => decide (x.2 = e.2))).length := by
      refine List.length_pos.mpr (fun hnil => ?_)
      have : e ∈ st.retry.filter (fun x => decide (x.2 = e.2)) :=
        List.mem_filter.mpr ⟨he, by simp⟩
      simp [hnil] at this
    have hcons : (e.2 :: rest.map Prod.snd).Nodup := by
      have : ((e :: rest).map Prod.snd).Nodup :=
        List.Nodup.sublist (hsub.map Prod.snd) hnd
      simpa using this
    have hnotin : e.2 ∉ rest.map Prod.snd := (List.nodup_cons.mp hcons).1
    have hrest : rest.Sublist st.retry := (List.sublist_cons_self e rest).trans hsub
    have hrestp : ∀ x ∈ rest, (! decide (x.2 = e.2)) = true := by
      intro x hx
      have : x.2 ≠ e.2 := by
        intro hx2
        exact hnotin (hx2 ▸ List.mem_map_of_mem Prod.snd hx)
      simp [this]
    have hsub' : rest.Sublist (st.retry.filter (fun x => ! decide (x.2 = e.2))) := by
      have h1 : rest.filter (fun x => ! decide (x.2 = e.2)) = rest :=
        List.filter_eq_self.mpr hrestp
      have h2 := List.Sublist.filter (fun x => ! decide (x.2 = e.2)) hrest
      rwa [h1] at h2
    have hnd' : ((st.retry.filter (fun x => ! decide (x.2 = e.2))).map Prod.snd).Nodup :=
      List.Nodup.sublist ((List.filter_sublist st.retry).map Prod.snd) hnd
    have step :
        promoteLoop (e :: rest) st acc =
          promoteLoop rest
            { st with
              retry := st.retry.filter (fun x => ! decide (x.2 = e.2)),
              pending := st.pending ++ [e.2] } (acc + 1) := by
      simp only [promoteLoop]
      rw [if_pos hpos]
    rw [step, ih _ (acc + 1) hsub' hnd']
    have hfilter :
        (st.retry.filter (fun x => ! decide (x.2 = e.2))).filter
            (fun x => decide (x.2 ∉ rest.map Prod.snd)) =
          st.retry.filter (fun x => decide (x.2 ∉ (e :: rest).map Prod.snd)) := by
      rw [List.filter_filter]
      refine List.filter_congr (fun x _ => ?_)
      by_cases h1 : x.2 = e.2 <;> by_cases h2 : x.2 ∈ rest.map Prod.snd <;>
        simp [h1, h2]
    refine Prod.ext ?_ ?_
    · refine QState.ext ?_ hfilter rfl
      simp
    · simp only [List.length_cons]
      omega

/-! ## Fixtures: concrete jobs, sessions and collaborator behaviour

Shared concrete inputs used by the witness and counterexample theorems. -/

/-- A concrete `loadPrompt`: template named `n` has content `"TEMPLATE n:"`. -/
def lpT : String → String := fun n => "TEMPLATE " ++ n ++ ":"

/-- A concrete external agent: always produces the same plan/summary and a
fresh continuation token. -/
def agentT : String → ClaudeResult :=
  fun _ => { summary := "1. Step one\n2. Step two", claudeSessionId := some "csid-1" }

def worldT : World :=
  { lp := lpT, agent := agentT, hasCommits := true,
    prUrlOf := fun n => "https://github.example/pr/" ++ toString n, newPr := 99 }

def jobPlan : EmailJob :=
  { id := "job-1", sessionId := "sess-1", project := "webapp",
    prompt := "Please add a dark mode toggle", replyTo := "dev@example.com",
    originalSubject := "[plan] Add dark mode", messageId := "<m1@mail>",
    resumeSession := false, attachments := none,
    createdAt := "2026-01-09T10:00:00Z", retryCount := none }

def jobCancel : EmailJob :=
  { jobPlan with id := "job-2", originalSubject := "Re: Add dark mode [cancel]", prompt := "" }

def jobMerge : EmailJob :=
  { jobPlan with id := "job-3", originalSubject := "Re: Add dark mode [merge]", prompt := "" }

def rowBase : SessionRow :=
  { id := "sess-1", subjectHash := "abc123def456", project := "webapp",
    branchName := "email-claude-abc12345", claudeSessionId := none,
    prNumber := none, createdAt := "t0", lastActivity := "t0" }

def rowWithPR : SessionRow := { rowBase with prNumber := some 5 }

/-- A handler-level session sitting in plan-review (what the handlers assume
`plan_pending` looks like). -/
def sessPlanPending : HSession :=
  { rowToSession rowWithPR with mode := some .plan_pending, pendingPlan := some "OLD PLAN" }

/-- An empty queue state and a job that has exhausted its retries. -/
def stEmpty : QState := { pending := [], retry := [], failed := [] }

def jobRetry2 : EmailJob := { jobPlan with retryCount := some 2 }

def jobRetry3 : EmailJob := { jobPlan with retryCount := some 3 }

/-! ## Claim theorems: retry engine -/

/-- C4: a job whose retry counter has reached `MAX_RETRIES = 3` is moved by
`scheduleRetry` to the dead-letter (failed) queue annotated with the last
error message and the failure timestamp, the final failure notification email
is emitted, and nothing is inserted into the retry queue (the pending queue is
also untouched). -/
theorem scheduleRetry_deadLetter (now : Nat) (nowIso : String) (st : QState)
    (job : EmailJob) (errMsg : String) (h : job.retryCount.getD 0 ≥ MAX_RETRIES) :
    (scheduleRetry now nowIso st job errMsg).state.retry = st.retry ∧
    (scheduleRetry now nowIso st job errMsg).state.pending = st.pending ∧
    (scheduleRetry now nowIso st job errMsg).state.failed =
      { job := job, failedAt := nowIso, lastError := errMsg } :: st.failed ∧
    (scheduleRetry now nowIso st job errMsg).finalEmail =
      some (formatErrorReply ("Job failed after 3 retries. Last error: " ++ errMsg) job) := by
  simp only [scheduleRetry, if_pos h]
  refine ⟨trivial, trivial, trivial, ?_⟩
  rfl

/-- Witness for C4 at a concrete input: a job with `retryCount = 3`. -/
theorem scheduleRetry_deadLetter_witness :
    jobRetry3.retryCount.getD 0 ≥ MAX_RETRIES ∧
    (scheduleRetry 5000 "2026-01-09T10:00:05Z" stEmpty jobRetry3 "boom").state.retry = stEmpty.retry ∧
    (scheduleRetry 5000 "2026-01-09T10:00:05Z" stEmpty jobRetry3 "boom").state.failed =
      { job := jobRetry3, failedAt := "2026-01-09T10:00:05Z", lastError := "boom" } :: stEmpty.failed ∧
    (scheduleRetry 5000 "2026-01-09T10:00:05Z" stEmpty jobRetry3 "boom").finalEmail =
      some (formatErrorReply ("Job failed after 3 retries. Last error: " ++ "boom") jobRetry3) := by
  have h := scheduleRetry_deadLetter 5000 "2026-01-09T10:00:05Z" stEmpty jobRetry3 "boom"
    (by decide)
  exact ⟨by decide, h.1, h.2.2.1, h.2.2.2⟩

/-- C5: the retry delays for counters 0, 1, 2 are 1000 ms, 2000 ms and
4000 ms, and a retry scheduled below the limit is inserted into the retry
queue with due time `now + delay` (with the counter bumped). -/
theorem calculateRetryDelay_values :
    calculateRetryDelay 0 = 1000 ∧ calculateRetryDelay 1 = 2000 ∧
    calculateRetryDelay 2 = 4000 ∧
    (∀ now nowIso st job errMsg, job.retryCount.getD 0 < MAX_RETRIES →
      (scheduleRetry now nowIso st job errMsg).state.retry =
        zAdd st.retry (now + calculateRetryDelay (job.retryCount.getD 0))
          { job with retryCount := some (job.retryCount.getD 0 + 1) }) := by
  refine ⟨by decide, by decide, by decide, ?_⟩
  intro now nowIso st job errMsg h
  simp only [scheduleRetry, if_neg (Nat.not_le.mpr h)]

/-- Witness for C5 at a concrete input: `retryCount = 2` gives due time
`now + 4000`. -/
theorem calculateRetryDelay_values_witness :
    jobRetry2.retryCount.getD 0 < MAX_RETRIES ∧
    (scheduleRetry 5000 "iso" stEmpty jobRetry2 "boom").state.retry =
      zAdd stEmpty.retry (5000 + calculateRetryDelay (jobRetry2.retryCount.getD 0))
        { jobRetry2 with retryCount := some (jobRetry2.retryCount.getD 0 + 1) } ∧
    5000 + calculateRetryDelay (jobRetry2.retryCount.getD 0) = 9000 :=
  ⟨by decide, calculateRetryDelay_values.2.2.2 5000 "iso" stEmpty jobRetry2 "boom" (by decide),
   by decide⟩

/-- C6: `processRetryQueue now` removes exactly the retry entries due at or
before `now`, appends their jobs — unchanged — to the pending queue, keeps
the later entries, returns the promoted count, and afterwards no promoted job
remains in the retry queue.  The hypothesis is the sorted-set invariant:
members of the retry queue are pairwise distinct. -/
theorem processRetryQueue_spec (now : Nat) (st : QState)
    (hnd : (st.retry.map Prod.snd).Nodup) :
    (processRetryQueue now st).1.retry =
      st.retry.filter (fun e => decide (now < e.1)) ∧
    (processRetryQueue now st).1.pending =
      st.pending ++ (st.retry.filter (fun e => decide (e.1 ≤ now))).map Prod.snd ∧
    (processRetryQueue now st).1.failed = st.failed ∧
    (processRetryQueue now st).2 =
      (st.retry.filter (fun e => decide (e.1 ≤ now))).length ∧
    ∀ j ∈ (st.retry.filter (fun e => decide (e.1 ≤ now))).map Prod.snd,
      j ∉ (processRetryQueue now st).1.retry.map Prod.snd := by
  have hinj := List.inj_on_of_nodup_map hnd
  have hsub : (st.retry.filter (fun e => decide (e.1 ≤ now))).Sublist st.retry :=
    List.filter_sublist st.retry
  have hspec := promoteLoop_spec (st.retry.filter (fun e => decide (e.1 ≤ now))) st 0 hsub hnd
  have hretry : (processRetryQueue now st).1.retry =
      st.retry.filter (fun e => decide (now < e.1)) := by
    rw [processRetryQueue, hspec]
    refine List.filter_congr (fun x hx => ?_)
    have : (x.2 ∉ (st.retry.filter (fun e => decide (e.1 ≤ now))).map Prod.snd) ↔ now < x.1 := by
      constructor
      · intro hnm
        by_contra hlt
        exact hnm (List.mem_map_of_mem Prod.snd
          (List.mem_filter.mpr ⟨hx, by simpa using Nat.not_lt.mp hlt⟩))
      · intro hlt hm
        obtain ⟨y, hy, hyx⟩ := List.mem_map.mp hm
        have hy' := List.mem_filter.mp hy
        have hxy : y = x := hinj hy'.1 hx hyx
        have hle : y.1 ≤ now := by simpa using hy'.2
        rw [hxy] at hle
        omega
    exact decide_eq_decide.mpr this
  refine ⟨hretry, ?_, ?_, ?_, ?_⟩
  · rw [processRetryQueue, hspec]
  · rw [processRetryQueue, hspec]
  · rw [processRetryQueue, hspec]; simp
  · intro j hj hj'
    rw [hretry] at hj'
    obtain ⟨x, hx, hxj⟩ := List.mem_map.mp hj
    obtain ⟨y, hy, hyj⟩ := List.mem_map.mp hj'
    have hx' := List.mem_filter.mp hx
    have hy' := List.mem_filter.mp hy
    have hxy : y = x := hinj hy'.1 hx'.1 (hyj.trans hxj.symm)
    have h1 : x.1 ≤ now := by simpa using hx'.2
    have h2 : now < y.1 := by simpa using hy'.2
    rw [hxy] at h2
    omega

/-- Witness for C6 at a concrete input: a retry queue with one due and one
future entry. -/
theorem processRetryQueue_spec_witness :
    (([(1000, jobRetry2), (9999, jobRetry3)].map Prod.snd).Nodup) ∧
    (processRetryQueue 5000
      { pending := [jobPlan], retry := [(1000, jobRetry2), (9999, jobRetry3)],
        failed := [] }).1.pending = [jobPlan, jobRetry2] ∧
    (processRetryQueue 5000
      { pending := [jobPlan], retry := [(1000, jobRetry2), (9999, jobRetry3)],
        failed := [] }).1.retry = [(9999, jobRetry3)] ∧
    (processRetryQueue 5000
      { pending := [jobPlan], retry := [(1000, jobRetry2), (9999, jobRetry3)],
        failed := [] }).2 = 1 := by
  have h := processRetryQueue_spec 5000
    { pending := [jobPlan], retry := [(1000, jobRetry2), (9999, jobRetry3)], failed := [] }
    (by decide)
  refine ⟨by decide, ?_, ?_, ?_⟩
  · rw [h.2.1]; decide
  · rw [h.1]; decide
  · rw [h.2.2.2.1]; decide

/-- C7: below the retry limit, `scheduleRetry` re-inserts the job with the
counter bumped to `previous + 1` (absent counter read as 0), which is a strict
increase; and promotion never changes a job: everything in the pending queue
after `processRetryQueue` was already pending or sits there verbatim from the
retry queue.  So the counter grows monotonically across requeues. -/
theorem retryCount_monotonic :
    (∀ now nowIso st job errMsg, job.retryCount.getD 0 < MAX_RETRIES →
      (now + calculateRetryDelay (job.retryCount.getD 0),
        { job with retryCount := some (job.retryCount.getD 0 + 1) }) ∈
        (scheduleRetry now nowIso st job errMsg).state.retry ∧
      job.retryCount.getD 0 < ({ job with
        retryCount := some (job.retryCount.getD 0 + 1) } : EmailJob).retryCount.getD 0) ∧
    (∀ now st j, (st.retry.map Prod.snd).Nodup →
      j ∈ (processRetryQueue now st).1.pending →
      j ∈ st.pending ∨ j ∈ st.retry.map Prod.snd) := by
  constructor
  · intro now nowIso st job errMsg h
    refine ⟨?_, by simp⟩
    simp only [scheduleRetry, if_neg (Nat.not_le.mpr h)]
    exact mem_zAdd st.retry (now + calculateRetryDelay (job.retryCount.getD 0))
      { job with retryCount := some (job.retryCount.getD 0 + 1) }
  · intro now st j hnd hj
    have hsub : (st.retry.filter (fun e => decide (e.1 ≤ now))).Sublist st.retry :=
      List.filter_sublist st.retry
    have hspec := promoteLoop_spec (st.retry.filter (fun e => decide (e.1 ≤ now))) st 0 hsub hnd
    rw [processRetryQueue, hspec] at hj
    rcases List.mem_append.mp hj with h | h
    · exact Or.inl h
    · obtain ⟨x, hx, hxj⟩ := List.mem_map.mp h
      exact Or.inr (hxj ▸ List.mem_map_of_mem Prod.snd (List.mem_filter.mp hx).1)

/-- Witness for C7 at a concrete input. -/
theorem retryCount_monotonic_witness :
    (jobRetry2.retryCount.getD 0 < MAX_RETRIES ∧
      (5000 + calculateRetryDelay (jobRetry2.retryCount.getD 0),
        { jobRetry2 with retryCount := some (jobRetry2.retryCount.getD 0 + 1) }) ∈
        (scheduleRetry 5000 "iso" stEmpty jobRetry2 "boom").state.retry) ∧
    (([(1000, jobRetry2)].map Prod.snd).Nodup ∧
      jobRetry2 ∈ (processRetryQueue 5000
        { pending := [], retry := [(1000, jobRetry2)], failed := [] }).1.pending ∧
      (jobRetry2 ∈ ([] : List EmailJob) ∨
        jobRetry2 ∈ ([(1000, jobRetry2)].map Prod.snd))) := by
  refine ⟨⟨by decide, (retryCount_monotonic.1 5000 "iso" stEmpty jobRetry2 "boom" (by decide)).1⟩,
    by decide, by decide,
    retryCount_monotonic.2 5000
      { pending := [], retry := [(1000, jobRetry2)], failed := [] } jobRetry2
      (by decide) (by decide)⟩

/-! ## Claim theorems: subject hashing, intent precedence, session frame -/

/-- The hex digest always has 64 characters. -/
theorem sha256HexChars_length (msg : List Nat) : (sha256HexChars msg).length = 64 := by
  simp [sha256HexChars, wordToHex]

/-- C8: `hashSubject` is the first 12 hex characters of the SHA-256 digest of
the normalized subject (one leading `Re:`/`Fwd:`/`Fw:` marker stripped with
its whitespace, trimmed, lower-cased), always 12 characters long; hashing is
therefore reply-marker-insensitive and stable on the spec's examples. -/
theorem hashSubject_spec :
    (∀ s, hashSubject s =
      String.mk ((sha256HexChars (utf8Encode
        (String.mk (jsLowerList (jsTrimList (stripReplyMarker s.data)))))).take 12)) ∧
    (∀ s, (hashSubject s).length = 12) ∧
    hashSubject "Re: Widget fix" = hashSubject "Widget fix" ∧
    hashSubject "FWD:  widget fix " = hashSubject "Widget fix" := by
  refine ⟨fun s => rfl, fun s => ?_, ?_, ?_⟩
  · show (String.mk ((sha256HexChars (utf8Encode (normalizeSubject s))).take 12)).length = 12
    have h := sha256HexChars_length (utf8Encode (normalizeSubject s))
    simp [String.length, List.length_take, h]
  · have h : normalizeSubject "Re: Widget fix" = normalizeSubject "Widget fix" := by decide
    unfold hashSubject
    rw [h]
  · have h : normalizeSubject "FWD:  widget fix " = normalizeSubject "Widget fix" := by decide
    unfold hashSubject
    rw [h]

/-- C9: `detectApproval` returns true whenever the lower-cased subject
contains `[confirm]`, no matter the body; otherwise any revision pattern over
`subject ⧺ " " ⧺ body` forces false even when approval phrases also match;
and the two spec examples evaluate accordingly. -/
theorem detectApproval_precedence :
    (∀ subject body, containsTok subject "[confirm]" = true →
      detectApproval subject body = true) ∧
    (∀ subject body, containsTok subject "[confirm]" = false →
      REVISION_PATTERNS.any (fun r => reTest r (subject ++ " " ++ body)) = true →
      detectApproval subject body = false) ∧
    detectApproval "Re: Plan" "Looks good but add tests" = false ∧
    detectApproval "[confirm] Re: Plan" "" = true := by
  refine ⟨?_, ?_, by decide, by decide⟩
  · intro subject body h
    simp [detectApproval, h]
  · intro subject body h hrev
    simp [detectApproval, h, hrev]

/-- Witness for C9 at concrete inputs, discharging both hypotheses. -/
theorem detectApproval_precedence_witness :
    (containsTok "[confirm] go" "[confirm]" = true ∧
      detectApproval "[confirm] go" "but change everything?" = true) ∧
    (containsTok "Re: P" "[confirm]" = false ∧
      REVISION_PATTERNS.any (fun r => reTest r ("Re: P" ++ " " ++ "looks good but add tests")) = true ∧
      detectApproval "Re: P" "looks good but add tests" = false) :=
  ⟨⟨by decide, detectApproval_precedence.1 "[confirm] go" "but change everything?" (by decide)⟩,
   ⟨by decide, by decide,
    detectApproval_precedence.2.1 "Re: P" "looks good but add tests" (by decide) (by decide)⟩⟩

/-- C10: `updateSession` always refreshes `last_activity` but persists only
`claudeSessionId`, `prNumber`, `branchName` and `project`; any other key of
the update object — in particular `mode` and `pendingPlan`, which the
plan-mode handlers pass — leaves the stored row unchanged, and a session read
back from the store never carries a `mode` or `pendingPlan` value (the
`sessions` schema has no such column). -/
theorem updateSession_frame :
    (∀ now r u, updateSession now r u =
      updateSession now r { u with mode := none, pendingPlan := none }) ∧
    (∀ now r u,
      (updateSession now r u).lastActivity = now ∧
      (updateSession now r u).id = r.id ∧
      (updateSession now r u).subjectHash = r.subjectHash ∧
      (updateSession now r u).createdAt = r.createdAt ∧
      (updateSession now r u).claudeSessionId = u.claudeSessionId.getD r.claudeSessionId ∧
      (updateSession now r u).prNumber = u.prNumber.getD r.prNumber ∧
      (updateSession now r u).branchName = u.branchName.getD r.branchName ∧
      (updateSession now r u).project = u.project.getD r.project) ∧
    (∀ r, (rowToSession r).mode = none ∧ (rowToSession r).pendingPlan = none) := by
  exact ⟨fun now r u => rfl,
         fun now r u => ⟨rfl, rfl, rfl, rfl, rfl, rfl, rfl, rfl⟩,
         fun r => ⟨rfl, rfl⟩⟩

/-! ## Claim theorems: plan-mode state machine -/

/-- Does an effect touch the PR collaborator (create/comment/merge/close)? -/
def isPREffect : Effect → Bool
  | .createPRE _ => true
  | .commentPRE _ => true
  | .mergePRE _ => true
  | .closePRE _ => true
  | _ => false

/-- Is the effect an external-agent invocation? -/
def isAgentInvokeE : Effect → Bool
  | .agentInvoke _ => true
  | _ => false

/-- Is the effect a session-store update? -/
def isSessionUpdateE : Effect → Bool
  | .sessionUpdate _ => true
  | _ => false

/-- The update object `handlePlanRequest` passes to the session store for the
fixture job. -/
def planPendingUpdate : SessionUpdate :=
  { claudeSessionId := some (some "csid-1"),
    mode := some .plan_pending,
    pendingPlan := some (some "1. Step one\n2. Step two") }

/-- C1: on a `[plan]` job for a stored (hence mode-less, i.e. `normal`)
session, the handler runs the agent in plan-only mode, replies with the plan
and approval instructions and creates no PR or PR comment — but the
`plan_pending` mode and the pending plan it passes to `updateSession` are
dropped: the stored row keeps no plan state (only `last_activity` and
`claude_session_id` change), so the session's persisted state never becomes
`plan_pending`. -/
theorem planRequest_state_not_persisted :
    handleEmailJob worldT "/projects" jobPlan (rowToSession rowBase) =
      [Effect.ensureRepoE "webapp",
       Effect.ensureDefaultBranchE "email-claude-abc12345",
       Effect.ensureBranchE "email-claude-abc12345",
       Effect.message "user"
         "[Plan Request] Subject: [plan] Add dark mode\n\nPlease add a dark mode toggle",
       Effect.agentInvoke
         (buildPlanPrompt lpT "[plan] Add dark mode" "Please add a dark mode toggle"),
       Effect.sessionUpdate planPendingUpdate,
       Effect.message "assistant" "[Plan]\n\n1. Step one\n2. Step two",
       Effect.sendReplyE (formatPlanReply "1. Step one\n2. Step two" jobPlan false)] ∧
    (handleEmailJob worldT "/projects" jobPlan (rowToSession rowBase)).filter isPREffect = [] ∧
    planPendingUpdate.mode = some SessionMode.plan_pending ∧
    planPendingUpdate.pendingPlan = some (some "1. Step one\n2. Step two") ∧
    updateSession "t1" rowBase planPendingUpdate =
      { rowBase with lastActivity := "t1", claudeSessionId := some "csid-1" } ∧
    (rowToSession (updateSession "t1" rowBase planPendingUpdate)).mode = none ∧
    (rowToSession (updateSession "t1" rowBase planPendingUpdate)).pendingPlan = none := by
  have htr : handleEmailJob worldT "/projects" jobPlan (rowToSession rowBase) =
      [Effect.ensureRepoE "webapp",
       Effect.ensureDefaultBranchE "email-claude-abc12345",
       Effect.ensureBranchE "email-claude-abc12345",
       Effect.message "user"
         "[Plan Request] Subject: [plan] Add dark mode\n\nPlease add a dark mode toggle",
       Effect.agentInvoke
         (buildPlanPrompt lpT "[plan] Add dark mode" "Please add a dark mode toggle"),
       Effect.sessionUpdate planPendingUpdate,
       Effect.message "assistant" "[Plan]\n\n1. Step one\n2. Step two",
       Effect.sendReplyE (formatPlanReply "1. Step one\n2. Step two" jobPlan false)] := by
    rfl
  refine ⟨htr, ?_, rfl, rfl, by decide, rfl, rfl⟩
  rw [htr]
  rfl

/-- C2: the cancel-a-pending-plan transition never happens on stored
sessions.  Sessions read from the store are never in `plan_pending` (the
schema keeps no mode), so a `[cancel]` email is routed to the generic command
handler: with an open PR it produces no effect at all — no cancellation
acknowledgment, no store update, though also no agent invocation — and
without a PR it produces only the "No PR exists" error reply. -/
theorem cancelPlan_unreachable :
    (∀ r : SessionRow, (rowToSession r).mode = none) ∧
    parseCommand jobCancel.originalSubject = some CommandType.cancel ∧
    handleEmailJob worldT "/projects" jobCancel (rowToSession rowWithPR) = [] ∧
    handleEmailJob worldT "/projects" jobCancel (rowToSession rowBase) =
      [Effect.sendReplyE
        { toAddr := "dev@example.com",
          subject := "Re: Re: Add dark mode [cancel]",
          inReplyTo := some "<m1@mail>",
          text := "Error: No PR exists for this session yet. Send a task email first to create a PR." }] ∧
    handleCancelPlan jobCancel =
      [Effect.sessionUpdate { mode := some .normal, pendingPlan := some none },
       Effect.message "user" "[Cancelled]",
       Effect.sendReplyE
         { toAddr := "dev@example.com",
           subject := "Re: Re: Add dark mode [cancel]",
           inReplyTo := some "<m1@mail>",
           text := "Plan cancelled. You can start a new request by sending another email." }] ∧
    (handleCancelPlan jobCancel).filter isAgentInvokeE = [] :=
  ⟨fun r => rfl, by decide, by rfl, by rfl, by rfl, by rfl⟩

/-- C3 counterexample: in `plan_pending`, a `[merge]` subject is *not*
treated as a plan revision — the dispatcher routes bracket commands before
the pending-plan check, so the PR is merged, the agent is never invoked, and
the pending plan is not touched. -/
theorem planPending_merge_counterexample :
    handleEmailJob worldT "/projects" jobMerge sessPlanPending =
      [Effect.mergePRE 5,
       Effect.sendReplyE
         { toAddr := "dev@example.com",
           subject := "Re: Re: Add dark mode [merge]",
           inReplyTo := some "<m1@mail>",
           text := "PR #5 has been merged successfully." }] ∧
    sessPlanPending.mode = some SessionMode.plan_pending ∧
    parseCommand jobMerge.originalSubject = some CommandType.merge ∧
    (handleEmailJob worldT "/projects" jobMerge sessPlanPending).filter isAgentInvokeE = [] ∧
    (handleEmailJob worldT "/projects" jobMerge sessPlanPending).filter isSessionUpdateE = [] :=
  ⟨by rfl, rfl, by decide, by rfl, by rfl⟩

/-- C3 (amended): in `plan_pending`, when the subject carries no bracket
command other than `[plan]` and the approval detector says no, the handler
runs the agent in plan-only mode over the prior plan and the revision
request, submits a session update carrying the new output as the pending plan
and leaving the mode untouched, and replies with the revised plan. -/
theorem planPending_revision (w : World) (pd : String) (job : EmailJob)
    (session : HSession) (p : String)
    (hmode : session.mode = some SessionMode.plan_pending)
    (hcmd : parseCommand job.originalSubject = none ∨
      parseCommand job.originalSubject = some CommandType.plan)
    (happr : detectApproval job.originalSubject job.prompt = false)
    (hplan : session.pendingPlan = some p) :
    handleEmailJob w pd job session =
      [Effect.ensureRepoE job.project,
       Effect.ensureBranchE session.branchName,
       Effect.message "user"
         ("[Revision Request] " ++ userContentOf job.originalSubject job.prompt),
       Effect.agentInvoke (buildRevisionPrompt w.lp job.originalSubject job.prompt p),
       Effect.sessionUpdate
         { pendingPlan := some (some (w.agent
             (buildRevisionPrompt w.lp job.originalSubject job.prompt p)).summary),
           claudeSessionId := some (csidCoalesce (w.agent
             (buildRevisionPrompt w.lp job.originalSubject job.prompt p)) session) },
       Effect.message "assistant"
         ("[Revised Plan]\n\n" ++ (w.agent
             (buildRevisionPrompt w.lp job.originalSubject job.prompt p)).summary),
       Effect.sendReplyE (formatPlanReply (w.agent
         (buildRevisionPrompt w.lp job.originalSubject job.prompt p)).summary job true)] ∧
    (∀ u, Effect.sessionUpdate u ∈ handleEmailJob w pd job session → u.mode = none) := by
  have htr : handleEmailJob w pd job session = handlePlanRevision w job session := by
    rcases hcmd with h | h <;>
      simp [handleEmailJob, h, hmode, handlePlanPendingReply, happr]
  have hrev : handlePlanRevision w job session =
      [Effect.ensureRepoE job.project,
       Effect.ensureBranchE session.branchName,
       Effect.message "user"
         ("[Revision Request] " ++ userContentOf job.originalSubject job.prompt),
       Effect.agentInvoke (buildRevisionPrompt w.lp job.originalSubject job.prompt p),
       Effect.sessionUpdate
         { pendingPlan := some (some (w.agent
             (buildRevisionPrompt w.lp job.originalSubject job.prompt p)).summary),
           claudeSessionId := some (csidCoalesce (w.agent
             (buildRevisionPrompt w.lp job.originalSubject job.prompt p)) session) },
       Effect.message "assistant"
         ("[Revised Plan]\n\n" ++ (w.agent
             (buildRevisionPrompt w.lp job.originalSubject job.prompt p)).summary),
       Effect.sendReplyE (formatPlanReply (w.agent
         (buildRevisionPrompt w.lp job.originalSubject job.prompt p)).summary job true)] := by
    simp [handlePlanRevision, hplan]
  refine ⟨htr.trans hrev, ?_⟩
  intro u hu
  rw [htr, hrev] at hu
  simp only [List.mem_cons, List.not_mem_nil, or_false] at hu
  rcases hu with h | h | h | h | h | h | h <;> first
    | (injection h with h'; rw [h'])
    | exact absurd h (by simp)

/-- A revision job for the witness: a plain reply, no bracket command, no
approval phrasing. -/
def jobRevise : EmailJob :=
  { jobPlan with
    id := "job-4"
    originalSubject := "Re: Add dark mode"
    prompt := "Add tests too" }

/-- Witness for the amended C3 at a concrete input. -/
theorem planPending_revision_witness :
    sessPlanPending.mode = some SessionMode.plan_pending ∧
    parseCommand jobRevise.originalSubject = none ∧
    detectApproval jobRevise.originalSubject jobRevise.prompt = false ∧
    sessPlanPending.pendingPlan = some "OLD PLAN" ∧
    handleEmailJob worldT "/projects" jobRevise sessPlanPending =
      [Effect.ensureRepoE jobRevise.project,
       Effect.ensureBranchE sessPlanPending.branchName,
       Effect.message "user"
         ("[Revision Request] " ++ userContentOf jobRevise.originalSubject jobRevise.prompt),
       Effect.agentInvoke
         (buildRevisionPrompt worldT.lp jobRevise.originalSubject jobRevise.prompt "OLD PLAN"),
       Effect.sessionUpdate
         { pendingPlan := some (some (worldT.agent
             (buildRevisionPrompt worldT.lp jobRevise.originalSubject jobRevise.prompt "OLD PLAN")).summary),
           claudeSessionId := some (csidCoalesce (worldT.agent
             (buildRevisionPrompt worldT.lp jobRevise.originalSubject jobRevise.prompt "OLD PLAN")) sessPlanPending) },
       Effect.message "assistant"
         ("[Revised Plan]\n\n" ++ (worldT.agent
             (buildRevisionPrompt worldT.lp jobRevise.originalSubject jobRevise.prompt "OLD PLAN")).summary),
       Effect.sendReplyE (formatPlanReply (worldT.agent
         (buildRevisionPrompt worldT.lp jobRevise.originalSubject jobRevise.prompt "OLD PLAN")).summary jobRevise true)] :=
  ⟨rfl, by decide, by decide, rfl,
   (planPending_revision worldT "/projects" jobRevise sessPlanPending "OLD PLAN"
     rfl (Or.inl (by decide)) (by decide) rfl).1⟩

end EmailClaude
